import Mathlib

/-!
A shallow embedding of mail2mongo (src/mail2mongo/__init__.py), an SMTP
daemon that saves incoming emails to MongoDB and pushes live websocket
notifications.  Strings are modelled as `List Char`; the Python string
operations used by the source (`str.strip`, `str.split`) are embedded
below following CPython semantics restricted to ASCII input.
-/

namespace Mail2Mongo

/-- The set of characters stripped by the argument-less Python `str.strip()`:
the ASCII whitespace characters (space, tab, LF, CR, vertical tab, form
feed).  The source file only ever strips ASCII text. -/
def pyIsSpace (c : Char) : Bool :=
  c = ' ' || c = '\t' || c = '\n' || c = '\r' || c = '\x0b' || c = '\x0c'

/-- Python `s.strip(chars)`: remove the characters satisfying `p` from both
ends of the string. -/
def pyStrip (p : Char → Bool) (s : List Char) : List Char :=
  ((s.dropWhile p).reverse.dropWhile p).reverse

/-- The trimming chain applied to the extracted body text in
`MessageHandler.handle_message` (lines 88-92 of the source):
`.strip().strip(backslash-n).strip(backslash-r).strip()`, applied left to
right. -/
def trimText (s : List Char) : List Char :=
  pyStrip pyIsSpace (pyStrip (fun c => c = '\r') (pyStrip (fun c => c = '\n') (pyStrip pyIsSpace s)))

/-- Stripping exactly the three characters the claim names — space, LF and
CR — from both ends.  Written from the words of the claim, to be compared
with `trimText`, which the code actually computes. -/
def claimStripSpaceCrLf (s : List Char) : List Char :=
  pyStrip (fun c => c = ' ' || c = '\n' || c = '\r') s

/-- Python `s.split(sep)` for a one-character separator: always returns at
least one (possibly empty) segment. -/
def pySplit (sep : Char) : List Char → List (List Char)
  | [] => [[]]
  | c :: cs =>
    match pySplit sep cs with
    | [] => [[]]
    | r :: rs => if c = sep then [] :: r :: rs else (c :: r) :: rs

/-! ## Data model: incoming messages and the persisted payload -/

/-- One MIME part of a multipart message, as the source observes it:
`get_content_type()` (already lowercased by the email library) and
`get_payload()` (the part body as a string). -/
structure MimePart where
  content_type : List Char
  payload : List Char
deriving DecidableEq, Repr

/-- The body of an incoming message: either a plain (non-multipart) string
body, or a list of MIME parts (`message.is_multipart()` true). -/
inductive MessageBody
  | simple (body : List Char)
  | multipart (parts : List MimePart)
deriving DecidableEq, Repr

/-- An incoming email message, projected onto exactly the fields
`handle_message` reads: the `From` / `To` / `Subject` headers
(`message.get(h, given-default)`, `none` when the header is absent) and the
body. -/
structure EmailMessage where
  fromH : Option (List Char)
  toH : Option (List Char)
  subjectH : Option (List Char)
  body : MessageBody
deriving DecidableEq, Repr

/-- The payload dict built by `handle_message` and inserted into MongoDB.
The timestamp (`datetime.now(timezone.utc)`) is modelled as an abstract
`Nat` supplied by the caller. -/
structure Payload where
  fromF : List Char
  toF : List Char
  subject : List Char
  timestamp : Nat
  text : List Char
deriving DecidableEq, Repr

/-- The `for` scan in `handle_message` (lines 74-77): the payload of the
first part whose content type is exactly `text/plain`, or `none` when no
part matches (the for-else branch). -/
def findTextPlain : List MimePart → Option (List Char)
  | [] => none
  | p :: ps =>
    if p.content_type = "text/plain".data then some p.payload else findTextPlain ps

/-- `MessageHandler.handle_message` (lines 65-99), up to the point where the
persistence task is spawned.  Returns `some payload` when a record is
produced and a concurrent unit is spawned for it, `none` when the message
is dropped (multipart with no `text/plain` part: the source logs a
diagnostic and returns without producing a record). -/
def handle_message (now : Nat) (message : EmailMessage) : Option Payload :=
  let text? :=
    match message.body with
    | .simple b => some b
    | .multipart parts => findTextPlain parts
  match text? with
  | none => none
  | some t =>
    some
      { fromF := message.fromH.getD []
        toF := message.toH.getD []
        subject := message.subjectH.getD []
        timestamp := now
        text := trimText t }

/-! ## The per-message concurrent unit: `process_payload` (lines 45-63)

The unit is modelled as the trace of observable actions it performs
(insert attempts against the store, backoff sleeps, websocket sends)
together with a termination outcome.  The store is modelled by the number
of consecutive `PyMongoError` failures it raises before an insert
succeeds; the retry loop of the source is total against such a store. -/

/-- One observable action of a persistence-and-dispatch unit. -/
inductive Event
  | insertAttempt (ok : Bool)
  | sleep (seconds : Nat)
  | send (conn : Nat) (p : Payload)
deriving DecidableEq, Repr

/-- A live websocket connection handle held by the registry: an identifier
plus whether its `send_json` raises when called. -/
structure Conn where
  id : Nat
  sendFails : Bool
deriving DecidableEq, Repr

/-- The subscriber table `self._ws_conn`, a dict from email identity to
connection; modelled as an association list with distinct keys. -/
def Registry : Type := List (List Char × Conn)

/-- `self._ws_conn.get(key)`: the connection registered for `key`, if any. -/
def lookupConn (reg : Registry) (key : List Char) : Option Conn :=
  (List.find? (fun e => e.1 = key) reg).map (fun e => e.2)

/-- How the coroutine `process_payload` terminates: normally, or by an
exception escaping it (there is no handler around the websocket send). -/
inductive UnitOutcome
  | ok
  | raised
deriving DecidableEq, Repr

/-- The `while True` insert loop of `process_payload` (lines 46-56) run
against a store that raises `PyMongoError` on the next `failures` insert
attempts and succeeds after that, entered with the given `sleep_time`.
Each failed attempt logs, sleeps `sleep_time`, and doubles `sleep_time`;
a successful attempt breaks out of the loop. -/
def insertLoopTrace : (failures : Nat) → (sleep_time : Nat) → List Event
  | 0, _ => [.insertAttempt true]
  | n + 1, sleep_time =>
    .insertAttempt false :: .sleep sleep_time :: insertLoopTrace n (2 * sleep_time)

/-- `MessageHandler.process_payload` (lines 45-63): the insert loop with
`sleep_time` starting at 60, then the notification step — look up
`payload.to` in the subscriber table and, when a connection is found,
`send_json` a `new_mail` event to it.  The send is not guarded: if it
raises, the exception escapes the coroutine (`UnitOutcome.raised`). -/
def process_payload (failures : Nat) (reg : Registry) (payload : Payload) :
    List Event × UnitOutcome :=
  match lookupConn reg payload.toF with
  | none => (insertLoopTrace failures 60, .ok)
  | some websock =>
    (insertLoopTrace failures 60 ++ [.send websock.id payload],
      if websock.sendFails then .raised else .ok)

/-- Number of insert attempts recorded in a trace. -/
def traceAttempts (t : List Event) : Nat :=
  (t.filter (fun e => match e with | .insertAttempt _ => true | _ => false)).length

/-- The backoff waits recorded in a trace, in order. -/
def traceWaits (t : List Event) : List Nat :=
  t.filterMap (fun e => match e with | .sleep s => some s | _ => none)

/-- The websocket send actions recorded in a trace, in order. -/
def traceSends (t : List Event) : List (Nat × Payload) :=
  t.filterMap (fun e => match e with | .send c p => some (c, p) | _ => none)

/-- The whole ingestion path for one received message: `handle_message`
normalizes and, when a record is produced, spawns one unit running
`process_payload` on it.  `none` means the message was dropped before any
store or notification activity. -/
def onMessage (now : Nat) (failures : Nat) (reg : Registry) (message : EmailMessage) :
    Option (Payload × List Event × UnitOutcome) :=
  (handle_message now message).map (fun p => (p, process_payload failures reg p))

/-! ## Websocket subscription handler (lines 162-189) -/

/-- JSON values, as far as the events sent over a websocket need them. -/
inductive Json
  | str (s : List Char)
  | obj (fields : List (List Char × Json))

/-- The JSON error event `dict(type=error, payload=dict(msg=msg))` sent to a
rejected subscriber: an object with field `type` holding the string
`error` and field `payload` holding an object with the single string
field `msg`. -/
def errorEventJson (msg : List Char) : Json :=
  .obj [("type".data, .str "error".data), ("payload".data, .obj [("msg".data, .str msg)])]

/-- A websocket subscribe request: the query-string parameters of the
`GET /ws` request (`request.query`), an association list.  A parameter
present with an empty value (as in a query string `?email=`) is
`some []`. -/
structure WsRequest where
  query : List (List Char × List Char)
deriving DecidableEq, Repr

/-- `request.query.get(k)` / the `k in request.query` test. -/
def queryGet (q : List (List Char × List Char)) (k : List Char) : Option (List Char) :=
  (List.find? (fun e => e.1 = k) q).map (fun e => e.2)

/-- `key in self._ws_conn`. -/
def containsKey (reg : Registry) (key : List Char) : Bool :=
  reg.any (fun e => e.1 = key)

/-- `del self._ws_conn[key]` (idempotent removal; the handler only deletes
the entry it itself installed). -/
def eraseKey (reg : Registry) (key : List Char) : Registry :=
  reg.filter (fun e => ¬ e.1 = key)

/-- What the subscription phase of `Application.websocket_handler`
(lines 162-180) does to the new connection and the registry: the JSON
events sent to the new connection, whether the server closed it, whether
the subscription was accepted, and the registry afterwards. -/
structure WsStep where
  sent : List Json
  closedByServer : Bool
  accepted : Bool
  reg : Registry

/-- The subscription phase of `Application.websocket_handler`: if `email`
is not among the query parameters, send one error event and close; if the
identity already has an entry, send one error event and close; otherwise
install the new connection under the identity. -/
def websocket_handler (reg : Registry) (request : WsRequest) (websock : Conn) : WsStep :=
  match queryGet request.query "email".data with
  | none =>
    { sent := [errorEventJson "email should be defined".data]
      closedByServer := true
      accepted := false
      reg := reg }
  | some email =>
    if containsKey reg email then
      { sent := [errorEventJson "subscriber already exists".data]
        closedByServer := true
        accepted := false
        reg := reg }
    else
      { sent := []
        closedByServer := false
        accepted := true
        reg := (email, websock) :: reg }

/-- The `finally` block of `websocket_handler` (lines 186-187), reached
when an accepted connection terminates for any reason: the entry for the
identity is removed from the registry. -/
def websocket_finish (reg : Registry) (email : List Char) : Registry :=
  eraseKey reg email

/-- The registry invariant: at most one entry (hence at most one live
connection) per identity. -/
def nodupKeys (reg : Registry) : Prop :=
  (reg.map Prod.fst).Nodup

/-! ## Relay authorization handler (lines 191-208) -/

/-- The Python exception raised by an out-of-range list index. -/
inductive PyError
  | indexError
deriving DecidableEq, Repr

/-- The authorization request, projected onto the two headers
`auth_handler` reads: `Auth-SMTP-To` (`headers.get` with default, so
`none` when absent) and `Host` (assumed present: `headers[Host]`). -/
structure AuthRequest where
  authSmtpTo : Option (List Char)
  host : List Char
deriving DecidableEq, Repr

/-- The `Auth-Status` value of the response. -/
inductive AuthStatus
  | ok
  | forbidden
deriving DecidableEq, Repr

/-- The response headers `auth_handler` builds: `Auth-Status`, plus
`Auth-Server`/`Auth-Port` on the OK branch (the FORBIDDEN branch carries
`Auth-Wait: 0` instead, which needs no modelling beyond the status). -/
structure AuthResponse where
  status : AuthStatus
  authServer : Option (List Char)
  authPort : Option Nat
deriving DecidableEq, Repr

/-- `Application.auth_handler` (lines 191-208):
`rcpt = headers.get(Auth-SMTP-To, empty).split(lt)[1].split(gt)[0].split(at)[1]`,
then FORBIDDEN unless some configured domain equals `rcpt`, else OK with
the SMTP port.  The two `[1]` indexings raise `IndexError` when the
corresponding separator is absent; `split(gt)[0]` always exists. -/
def auth_handler (allow_domains : List (List Char)) (smtp_port : Nat)
    (request : AuthRequest) : Except PyError AuthResponse :=
  match (pySplit '<' (request.authSmtpTo.getD []))[1]? with
  | none => .error .indexError
  | some s1 =>
    match (pySplit '@' ((pySplit '>' s1).headD []))[1]? with
    | none => .error .indexError
    | some rcpt =>
      if (allow_domains.filter (fun x => x = rcpt)).isEmpty then
        .ok { status := .forbidden, authServer := none, authPort := none }
      else
        .ok { status := .ok, authServer := some request.host, authPort := some smtp_port }

/-! ## Lemmas about the Python string helpers -/

theorem head?_dropWhile_false {p : Char → Bool} :
    ∀ {l : List Char} {c : Char}, (l.dropWhile p).head? = some c → p c = false := by
  intro l
  induction l with
  | nil => intro c h; simp [List.dropWhile] at h
  | cons a l ih =>
    intro c h
    rw [List.dropWhile_cons] at h
    by_cases hpa : p a = true
    · simp [hpa] at h
      exact ih h
    · simp [hpa] at h
      subst h
      simpa using hpa

theorem dropWhile_eq_self_of_head? {p : Char → Bool} {l : List Char}
    (h : ∀ c, l.head? = some c → p c = false) : l.dropWhile p = l := by
  cases l with
  | nil => rfl
  | cons a l => rw [List.dropWhile_cons, h a rfl]; simp

theorem getLast?_dropWhile {p : Char → Bool} :
    ∀ {l : List Char}, l.dropWhile p ≠ [] → (l.dropWhile p).getLast? = l.getLast? := by
  intro l
  induction l with
  | nil => intro h; simp [List.dropWhile] at h
  | cons a l ih =>
    intro h
    rw [List.dropWhile_cons] at h ⊢
    by_cases hpa : p a = true
    · simp only [hpa, if_true] at h ⊢
      rw [ih h]
      cases l with
      | nil => simp [List.dropWhile] at h
      | cons b l => exact (List.getLast?_cons_cons).symm
    · simp [hpa]

theorem pyStrip_head?_false {p : Char → Bool} {s : List Char} {c : Char}
    (h : (pyStrip p s).head? = some c) : p c = false := by
  unfold pyStrip at h
  rw [List.head?_reverse] at h
  have hne : ((s.dropWhile p).reverse.dropWhile p) ≠ [] := by
    intro hnil; rw [hnil] at h; simp at h
  rw [getLast?_dropWhile hne, List.getLast?_reverse] at h
  exact head?_dropWhile_false h

theorem pyStrip_getLast?_false {p : Char → Bool} {s : List Char} {c : Char}
    (h : (pyStrip p s).getLast? = some c) : p c = false := by
  unfold pyStrip at h
  rw [List.getLast?_reverse] at h
  exact head?_dropWhile_false h

theorem pyStrip_eq_self {p : Char → Bool} {l : List Char}
    (h1 : ∀ c, l.head? = some c → p c = false)
    (h2 : ∀ c, l.getLast? = some c → p c = false) : pyStrip p l = l := by
  unfold pyStrip
  rw [dropWhile_eq_self_of_head? h1]
  rw [dropWhile_eq_self_of_head? (fun c hc => h2 c (by rwa [List.head?_reverse] at hc))]
  exact List.reverse_reverse l

theorem pyStrip_pyStrip {p q : Char → Bool} (himp : ∀ c, p c = true → q c = true)
    (s : List Char) : pyStrip p (pyStrip q s) = pyStrip q s := by
  apply pyStrip_eq_self
  · intro c hc
    have hq := pyStrip_head?_false hc
    cases hp : p c with
    | false => rfl
    | true => rw [himp c hp] at hq; cases hq
  · intro c hc
    have hq := pyStrip_getLast?_false hc
    cases hp : p c with
    | false => rfl
    | true => rw [himp c hp] at hq; cases hq

/-- The trimming chain of the source collapses to a single strip of all
(ASCII) whitespace from both ends: the first bare `.strip()` already
removes every whitespace character at the ends, so the later
`.strip(backslash-n)`, `.strip(backslash-r)` and final `.strip()` are
no-ops. -/
theorem trimText_eq_pyStrip (s : List Char) : trimText s = pyStrip pyIsSpace s := by
  unfold trimText
  rw [pyStrip_pyStrip (p := fun c => c = '\n') (q := pyIsSpace)
    (fun c hc => by
      have : c = '\n' := by simpa using hc
      subst this; rfl) s]
  rw [pyStrip_pyStrip (p := fun c => c = '\r') (q := pyIsSpace)
    (fun c hc => by
      have : c = '\r' := by simpa using hc
      subst this; rfl) s]
  rw [pyStrip_pyStrip (p := pyIsSpace) (q := pyIsSpace) (fun c hc => hc) s]

/-! ## Lemmas about `pySplit` -/

theorem pySplit_ne_nil (sep : Char) : ∀ s : List Char, pySplit sep s ≠ [] := by
  intro s
  cases s with
  | nil => simp [pySplit]
  | cons c cs =>
    simp only [pySplit]
    split
    · simp
    · split <;> simp

theorem pySplit_not_mem {sep : Char} :
    ∀ {s : List Char}, sep ∉ s → pySplit sep s = [s] := by
  intro s
  induction s with
  | nil => intro _; rfl
  | cons c cs ih =>
    intro h
    have hc : ¬ c = sep := fun hh => h (by simp [hh])
    have hcs : sep ∉ cs := fun hh => h (List.mem_cons_of_mem _ hh)
    simp only [pySplit, ih hcs]
    simp [hc]

theorem pySplit_append {sep : Char} :
    ∀ {a : List Char}, sep ∉ a → ∀ b, pySplit sep (a ++ sep :: b) = a :: pySplit sep b := by
  intro a
  induction a with
  | nil =>
    intro _ b
    simp only [List.nil_append, pySplit]
    cases h : pySplit sep b with
    | nil => exact absurd h (pySplit_ne_nil sep b)
    | cons r rs => simp
  | cons c a ih =>
    intro h b
    have hc : ¬ c = sep := fun hh => h (by simp [hh])
    have ha : sep ∉ a := fun hh => h (List.mem_cons_of_mem _ hh)
    simp only [List.cons_append, pySplit, List.append_eq]
    rw [ih ha b]
    simp [hc]

theorem pySplit_one_none {sep : Char} {s : List Char} (h : sep ∉ s) :
    (pySplit sep s)[1]? = none := by
  rw [pySplit_not_mem h]; rfl

/-! ## Lemmas about the normalizer -/

theorem findTextPlain_eq_none :
    ∀ {parts : List MimePart}, (∀ p ∈ parts, p.content_type ≠ "text/plain".data) →
      findTextPlain parts = none := by
  intro parts
  induction parts with
  | nil => intro _; rfl
  | cons p ps ih =>
    intro h
    simp only [findTextPlain]
    rw [if_neg (h p (List.mem_cons_self p ps))]
    exact ih (fun q hq => h q (List.mem_cons_of_mem _ hq))

theorem findTextPlain_first :
    ∀ {pre : List MimePart} (part : MimePart) (post : List MimePart),
      (∀ q ∈ pre, q.content_type ≠ "text/plain".data) →
      part.content_type = "text/plain".data →
      findTextPlain (pre ++ part :: post) = some part.payload := by
  intro pre
  induction pre with
  | nil =>
    intro part post _ hp
    simp [findTextPlain, hp]
  | cons q pre ih =>
    intro part post h hp
    simp only [List.cons_append, findTextPlain]
    rw [if_neg (h q (List.mem_cons_self q pre))]
    exact ih part post (fun r hr => h r (List.mem_cons_of_mem _ hr)) hp

/-! ## Lemmas about the retry-loop trace -/

theorem insertLoopTrace_length : ∀ (n s : Nat), (insertLoopTrace n s).length = 2 * n + 1 := by
  intro n
  induction n with
  | zero => intro s; rfl
  | succ n ih =>
    intro s
    simp only [insertLoopTrace, List.length_cons, ih (2 * s)]
    omega

theorem traceAttempts_insertLoopTrace :
    ∀ (n s : Nat), traceAttempts (insertLoopTrace n s) = n + 1 := by
  intro n
  induction n with
  | zero => intro s; rfl
  | succ n ih =>
    intro s
    rw [show insertLoopTrace (n + 1) s
        = .insertAttempt false :: .sleep s :: insertLoopTrace n (2 * s) from rfl]
    rw [show traceAttempts (.insertAttempt false :: .sleep s :: insertLoopTrace n (2 * s))
        = traceAttempts (insertLoopTrace n (2 * s)) + 1 from rfl]
    rw [ih (2 * s)]

theorem traceWaits_insertLoopTrace :
    ∀ (n s : Nat), traceWaits (insertLoopTrace n s) = (List.range n).map (fun i => s * 2 ^ i) := by
  intro n
  induction n with
  | zero => intro s; rfl
  | succ n ih =>
    intro s
    rw [show insertLoopTrace (n + 1) s
        = .insertAttempt false :: .sleep s :: insertLoopTrace n (2 * s) from rfl]
    rw [show traceWaits (.insertAttempt false :: .sleep s :: insertLoopTrace n (2 * s))
        = s :: traceWaits (insertLoopTrace n (2 * s)) from rfl]
    rw [ih (2 * s), List.range_succ_eq_map, List.map_cons, List.map_map]
    refine List.cons_eq_cons.mpr ⟨by norm_num, ?_⟩
    apply List.map_congr_left
    intro i _
    simp only [Function.comp_apply, Nat.succ_eq_add_one, pow_succ]
    ring

theorem insertLoopTrace_getElem_last :
    ∀ (n s : Nat), (insertLoopTrace n s)[2 * n]? = some (.insertAttempt true) := by
  intro n
  induction n with
  | zero => intro s; rfl
  | succ n ih =>
    intro s
    have h2 : 2 * (n + 1) = (2 * n) + 1 + 1 := by omega
    simp only [insertLoopTrace, h2, List.getElem?_cons_succ]
    exact ih (2 * s)

theorem send_not_mem_insertLoopTrace :
    ∀ (n s : Nat) (c : Nat) (q : Payload), Event.send c q ∉ insertLoopTrace n s := by
  intro n
  induction n with
  | zero => intro s c q; simp [insertLoopTrace]
  | succ n ih =>
    intro s c q
    simp only [insertLoopTrace, List.mem_cons]
    push_neg
    exact ⟨by simp, by simp, ih (2 * s) c q⟩

theorem traceSends_insertLoopTrace :
    ∀ (n s : Nat), traceSends (insertLoopTrace n s) = [] := by
  intro n
  induction n with
  | zero => intro s; rfl
  | succ n ih =>
    intro s
    rw [show insertLoopTrace (n + 1) s
        = .insertAttempt false :: .sleep s :: insertLoopTrace n (2 * s) from rfl]
    rw [show traceSends (.insertAttempt false :: .sleep s :: insertLoopTrace n (2 * s))
        = traceSends (insertLoopTrace n (2 * s)) from rfl]
    exact ih (2 * s)

theorem traceAttempts_append (t1 t2 : List Event) :
    traceAttempts (t1 ++ t2) = traceAttempts t1 + traceAttempts t2 := by
  simp [traceAttempts, List.filter_append]

theorem traceSends_append (t1 t2 : List Event) :
    traceSends (t1 ++ t2) = traceSends t1 ++ traceSends t2 := by
  simp [traceSends, List.filterMap_append]

theorem mem_of_getElem?_eq_some {α : Type} {l : List α} {i : Nat} {a : α}
    (h : l[i]? = some a) : a ∈ l := by
  obtain ⟨hi, rfl⟩ := List.getElem?_eq_some.mp h
  exact List.getElem_mem hi

/-! ## Lemmas about the subscriber registry -/

theorem lookupConn_cons (x : List Char × Conn) (reg : Registry) (k : List Char) :
    lookupConn (x :: reg) k = if x.1 = k then some x.2 else lookupConn reg k := by
  by_cases h : x.1 = k
  · simp [lookupConn, List.find?_cons_of_pos, h]
  · simp [lookupConn, List.find?_cons_of_neg, h]

theorem containsKey_cons (x : List Char × Conn) (reg : Registry) (k : List Char) :
    containsKey (x :: reg) k = (decide (x.1 = k) || containsKey reg k) := by
  simp [containsKey]

theorem eraseKey_cons (x : List Char × Conn) (reg : Registry) (k : List Char) :
    eraseKey (x :: reg) k = if x.1 = k then eraseKey reg k else x :: eraseKey reg k := by
  by_cases h : x.1 = k <;> simp [eraseKey, List.filter_cons, h]

theorem not_mem_keys_of_containsKey_false {reg : Registry} {e : List Char}
    (h : containsKey reg e = false) : e ∉ reg.map Prod.fst := by
  intro hmem
  obtain ⟨x, hx, hxe⟩ := List.mem_map.mp hmem
  have ht : reg.any (fun ee => ee.1 = e) = true :=
    List.any_eq_true.mpr ⟨x, hx, by simp [hxe]⟩
  rw [containsKey] at h
  rw [h] at ht
  cases ht

theorem nodupKeys_eraseKey {reg : Registry} (h : nodupKeys reg) (k : List Char) :
    nodupKeys (eraseKey reg k) := by
  unfold nodupKeys at h ⊢
  exact h.sublist ((List.filter_sublist reg).map Prod.fst)

theorem containsKey_eraseKey_self (reg : Registry) (k : List Char) :
    containsKey (eraseKey reg k) k = false := by
  induction reg with
  | nil => rfl
  | cons x reg ih =>
    rw [eraseKey_cons]
    by_cases h : x.1 = k
    · simpa [h] using ih
    · rw [if_neg h, containsKey_cons, ih]
      simp [h]

theorem lookupConn_eraseKey_ne {k email : List Char} (hne : ¬ k = email)
    (reg : Registry) : lookupConn (eraseKey reg email) k = lookupConn reg k := by
  induction reg with
  | nil => rfl
  | cons x reg ih =>
    rw [eraseKey_cons]
    by_cases hx : x.1 = email
    · have hxk : ¬ x.1 = k := fun hh => hne (by rw [← hh, hx])
      rw [if_pos hx, ih, lookupConn_cons, if_neg hxk]
    · rw [if_neg hx, lookupConn_cons, lookupConn_cons, ih]

/-! ## The claims -/

/-- C1: for every record and every store that fails the insert `N` times
(raising a store-level error each time) and then succeeds, the persist
phase of `process_payload` performs exactly `N + 1` insert attempts, with
waits of 60, 120, 240, ... seconds between attempts (the wait before retry
`i + 1` is `60 * 2 ^ i`; the formula holds for every `N`, so there is no
retry cap and no backoff ceiling), and the final event of the insert loop,
at index `2 * N` of the unit trace, is the successful `(N + 1)`-th
attempt, after which the loop breaks: the persist phase ends in success
and never hands a failure to the rest of the unit. -/
theorem persist_retry_backoff (N : Nat) (reg : Registry) (p : Payload) :
    traceAttempts (process_payload N reg p).1 = N + 1 ∧
    traceWaits (process_payload N reg p).1 = (List.range N).map (fun i => 60 * 2 ^ i) ∧
    ((process_payload N reg p).1)[2 * N]? = some (.insertAttempt true) := by
  unfold process_payload
  cases hl : lookupConn reg p.toF with
  | none =>
    exact ⟨traceAttempts_insertLoopTrace N 60, traceWaits_insertLoopTrace N 60,
      insertLoopTrace_getElem_last N 60⟩
  | some websock =>
    refine ⟨?_, ?_, ?_⟩
    · rw [traceAttempts_append, traceAttempts_insertLoopTrace N 60]
      rfl
    · show traceWaits (insertLoopTrace N 60 ++ [.send websock.id p]) = _
      rw [show ∀ t : List Event, traceWaits (t ++ [.send websock.id p]) = traceWaits t
          from fun t => by simp [traceWaits, List.filterMap_append]]
      exact traceWaits_insertLoopTrace N 60
    · show (insertLoopTrace N 60 ++ [.send websock.id p])[2 * N]? = _
      rw [List.getElem?_append,
        if_pos (by rw [insertLoopTrace_length]; omega)]
      exact insertLoopTrace_getElem_last N 60

/-- C9: within a single in-flight unit, persist precedes notify: wherever
the unit trace contains a websocket send at position `i`, there is an
earlier position `j < i` holding a successful store insert.  In
particular a unit whose record is never persisted never reaches the
send. -/
theorem notify_only_after_persist (N : Nat) (reg : Registry) (p : Payload)
    (i : Nat) (c : Nat) (q : Payload)
    (h : ((process_payload N reg p).1)[i]? = some (.send c q)) :
    ∃ j, j < i ∧ ((process_payload N reg p).1)[j]? = some (.insertAttempt true) := by
  cases hl : lookupConn reg p.toF with
  | none =>
    have htr : (process_payload N reg p).1 = insertLoopTrace N 60 := by
      unfold process_payload; rw [hl]
    rw [htr] at h
    exact absurd (mem_of_getElem?_eq_some h) (send_not_mem_insertLoopTrace N 60 c q)
  | some websock =>
    have htr : (process_payload N reg p).1
        = insertLoopTrace N 60 ++ [Event.send websock.id p] := by
      unfold process_payload; rw [hl]
    rw [htr] at h ⊢
    have hlen : (insertLoopTrace N 60).length = 2 * N + 1 := insertLoopTrace_length N 60
    by_cases hi : i < (insertLoopTrace N 60).length
    · rw [List.getElem?_append, if_pos hi] at h
      exact absurd (mem_of_getElem?_eq_some h) (send_not_mem_insertLoopTrace N 60 c q)
    · refine ⟨2 * N, by omega, ?_⟩
      rw [List.getElem?_append, if_pos (by omega)]
      exact insertLoopTrace_getElem_last N 60

/-- Witness for C9 at a concrete input: a store that succeeds at once and
a live non-failing subscriber for the recipient; the send sits at index 1
of the trace and the successful insert at index 0. -/
theorem notify_only_after_persist_witness :
    ∃ j, j < 1 ∧ ((process_payload 0 [(['a'], ⟨7, false⟩)]
      { fromF := [], toF := ['a'], subject := [], timestamp := 0, text := [] }).1)[j]? =
        some (.insertAttempt true) :=
  notify_only_after_persist 0 [(['a'], ⟨7, false⟩)]
    { fromF := [], toF := ['a'], subject := [], timestamp := 0, text := [] }
    1 7 { fromF := [], toF := ['a'], subject := [], timestamp := 0, text := [] }
    (by decide)

/-- C2 as stated is false at a concrete input: with a record already
persisted (a store that succeeds at once) and a live connection registered
under the `to` identity whose send fails, the dispatch step does not
complete without propagating an error — `process_payload` terminates with
the exception escaping the coroutine, because the source wraps no handler
around `send_json`. -/
theorem send_failure_propagates_cex :
    (process_payload 0 [(['a'], ⟨0, true⟩)]
      { fromF := [], toF := ['a'], subject := [], timestamp := 0, text := [] }).2
      ≠ UnitOutcome.ok := by
  decide

/-- C2 amended: when the connection registered under the `to` identity of
a persisted record fails its send, the failure escapes `process_payload`
and terminates that in-flight unit (it is absorbed only at the
fire-and-forget task boundary, not swallowed by the dispatch code); within
the unit there is no retry and no escalation — exactly one send is
attempted, the store inserts are exactly the `N + 1` of the persist phase
(the record remains persisted), and the successful insert at index `2 * N`
precedes the send at index `2 * N + 1`. -/
theorem send_failure_terminates_unit (N : Nat) (reg : Registry) (p : Payload) (c : Conn)
    (hl : lookupConn reg p.toF = some c) (hf : c.sendFails = true) :
    (process_payload N reg p).2 = .raised ∧
    traceSends (process_payload N reg p).1 = [(c.id, p)] ∧
    traceAttempts (process_payload N reg p).1 = N + 1 ∧
    ((process_payload N reg p).1)[2 * N]? = some (.insertAttempt true) ∧
    ((process_payload N reg p).1)[2 * N + 1]? = some (.send c.id p) := by
  have htr : (process_payload N reg p).1
      = insertLoopTrace N 60 ++ [Event.send c.id p] := by
    unfold process_payload; rw [hl]
  have hout : (process_payload N reg p).2 = UnitOutcome.raised := by
    unfold process_payload; rw [hl]; simp [hf]
  have hlen : (insertLoopTrace N 60).length = 2 * N + 1 := insertLoopTrace_length N 60
  refine ⟨hout, ?_, ?_, ?_, ?_⟩
  · rw [htr, traceSends_append, traceSends_insertLoopTrace N 60]
    rfl
  · rw [htr, traceAttempts_append, traceAttempts_insertLoopTrace N 60]
    rfl
  · rw [htr, List.getElem?_append, if_pos (by omega)]
    exact insertLoopTrace_getElem_last N 60
  · rw [htr, List.getElem?_append, if_neg (by omega), hlen]
    simp

/-- Witness for the amended C2 at a concrete input: one store failure then
success, one failing subscriber connection for the recipient. -/
theorem send_failure_terminates_unit_witness :
    (process_payload 1 [(['a'], ⟨3, true⟩)]
      { fromF := [], toF := ['a'], subject := [], timestamp := 0, text := [] }).2 = .raised ∧
    traceSends (process_payload 1 [(['a'], ⟨3, true⟩)]
      { fromF := [], toF := ['a'], subject := [], timestamp := 0, text := [] }).1
      = [(3, { fromF := [], toF := ['a'], subject := [], timestamp := 0, text := [] })] ∧
    traceAttempts (process_payload 1 [(['a'], ⟨3, true⟩)]
      { fromF := [], toF := ['a'], subject := [], timestamp := 0, text := [] }).1 = 1 + 1 ∧
    ((process_payload 1 [(['a'], ⟨3, true⟩)]
      { fromF := [], toF := ['a'], subject := [], timestamp := 0, text := [] }).1)[2 * 1]?
      = some (.insertAttempt true) ∧
    ((process_payload 1 [(['a'], ⟨3, true⟩)]
      { fromF := [], toF := ['a'], subject := [], timestamp := 0, text := [] }).1)[2 * 1 + 1]?
      = some (.send 3 { fromF := [], toF := ['a'], subject := [], timestamp := 0, text := [] }) :=
  send_failure_terminates_unit 1 [(['a'], ⟨3, true⟩)]
    { fromF := [], toF := ['a'], subject := [], timestamp := 0, text := [] }
    ⟨3, true⟩ (by decide) rfl

/-- C3 as stated is false at a concrete input: a multipart message whose
single `text/plain` part has content starting with a tab.  Stripping only
spaces, LF and CR from the ends (the claim) keeps the tab, but the
leading bare `.strip()` of the source removes every whitespace character, tab
included. -/
theorem multipart_trim_claim_cex :
    (handle_message 0
      { fromH := none, toH := none, subjectH := none,
        body := .multipart [⟨"text/plain".data, '\t' :: "hi".data⟩] }).map Payload.text
      ≠ some (claimStripSpaceCrLf ('\t' :: "hi".data)) := by
  decide

/-- C3 amended: for every multipart message containing at least one part
of content type exactly `text/plain`, normalization produces a record
whose `text` equals the content of the first such part in part order with
all leading and trailing whitespace characters — spaces, tabs, LF, CR,
vertical tab, form feed — stripped from both ends (not only spaces, LF
and CR). -/
theorem multipart_text_first_plain_trimmed (now : Nat) (msg : EmailMessage)
    (pre : List MimePart) (part : MimePart) (post : List MimePart)
    (hb : msg.body = .multipart (pre ++ part :: post))
    (hpre : ∀ q ∈ pre, q.content_type ≠ "text/plain".data)
    (hp : part.content_type = "text/plain".data) :
    handle_message now msg = some
      { fromF := msg.fromH.getD [], toF := msg.toH.getD [],
        subject := msg.subjectH.getD [], timestamp := now,
        text := pyStrip pyIsSpace part.payload } := by
  simp only [handle_message, hb, findTextPlain_first part post hpre hp,
    trimText_eq_pyStrip]

/-- Witness for the amended C3 at a concrete input: a multipart message
with a `text/html` part followed by the `text/plain` part. -/
theorem multipart_text_first_plain_trimmed_witness :
    handle_message 5
      { fromH := some "u@dom".data, toH := some "a@x.com".data, subjectH := none,
        body := .multipart
          [⟨"text/html".data, "hi html".data⟩,
           ⟨"text/plain".data, " \t hi \n".data⟩] } = some
      { fromF := "u@dom".data, toF := "a@x.com".data,
        subject := [], timestamp := 5,
        text := pyStrip pyIsSpace " \t hi \n".data } :=
  multipart_text_first_plain_trimmed 5
    { fromH := some "u@dom".data, toH := some "a@x.com".data, subjectH := none,
      body := .multipart
        [⟨"text/html".data, "hi html".data⟩,
         ⟨"text/plain".data, " \t hi \n".data⟩] }
    [⟨"text/html".data, "hi html".data⟩] ⟨"text/plain".data, " \t hi \n".data⟩ []
    rfl (by decide) rfl

/-- C4: a multipart message with zero parts of content type `text/plain`
is dropped — `handle_message` produces no record (`none`), and the full
ingestion path spawns no unit (`onMessage` is `none`), so no store insert
is attempted and no notification is dispatched; the source only logs a
diagnostic in this branch. -/
theorem multipart_without_plain_dropped (now N : Nat) (reg : Registry)
    (msg : EmailMessage) (parts : List MimePart)
    (hb : msg.body = .multipart parts)
    (hz : ∀ p ∈ parts, p.content_type ≠ "text/plain".data) :
    handle_message now msg = none ∧ onMessage now N reg msg = none := by
  have h := findTextPlain_eq_none hz
  constructor
  · simp only [handle_message, hb, h]
  · simp only [onMessage, handle_message, hb, h]
    rfl

/-- Witness for C4 at a concrete input: a multipart message whose only
parts are `text/html` and `image/png`. -/
theorem multipart_without_plain_dropped_witness :
    handle_message 0
      { fromH := some "u@dom".data, toH := some "a@x.com".data, subjectH := some "Hi".data,
        body := .multipart
          [⟨"text/html".data, "hi html".data⟩, ⟨"image/png".data, "img".data⟩] } = none ∧
    onMessage 0 2 [(['a'], ⟨0, false⟩)]
      { fromH := some "u@dom".data, toH := some "a@x.com".data, subjectH := some "Hi".data,
        body := .multipart
          [⟨"text/html".data, "hi html".data⟩, ⟨"image/png".data, "img".data⟩] } = none :=
  multipart_without_plain_dropped 0 2 [(['a'], ⟨0, false⟩)]
    { fromH := some "u@dom".data, toH := some "a@x.com".data, subjectH := some "Hi".data,
      body := .multipart
        [⟨"text/html".data, "hi html".data⟩, ⟨"image/png".data, "img".data⟩] }
    [⟨"text/html".data, "hi html".data⟩, ⟨"image/png".data, "img".data⟩]
    rfl (by decide)

/-- C5: for every non-multipart message, the `text` of the produced record is
the raw body with leading and trailing whitespace (spaces, tabs, CR, LF,
vertical tab, form feed) stripped from both ends, and `from`, `to` and
`subject` are the header values verbatim, with the empty string
substituted for an absent header. -/
theorem simple_message_record (now : Nat) (msg : EmailMessage) (b : List Char)
    (hb : msg.body = .simple b) :
    handle_message now msg = some
      { fromF := msg.fromH.getD [], toF := msg.toH.getD [],
        subject := msg.subjectH.getD [], timestamp := now,
        text := pyStrip pyIsSpace b } := by
  simp only [handle_message, hb, trimText_eq_pyStrip]

/-- Witness for C5 at a concrete input: a plain message with a CRLF-padded
body and an absent `Subject` header. -/
theorem simple_message_record_witness :
    handle_message 9
      { fromH := some "u@dom".data, toH := some "a@x.com".data, subjectH := none,
        body := .simple " hello\r\n".data } = some
      { fromF := "u@dom".data, toF := "a@x.com".data, subject := [],
        timestamp := 9, text := pyStrip pyIsSpace " hello\r\n".data } :=
  simple_message_record 9
    { fromH := some "u@dom".data, toH := some "a@x.com".data, subjectH := none,
      body := .simple " hello\r\n".data }
    " hello\r\n".data rfl

/-- C6 as stated is false at a concrete input: a subscribe request whose
`email` parameter is present but empty (query string `?email=`) is not
rejected — the handler only tests `email not in request.query`, so the
empty identity is accepted and registered under the empty key: no error
event is sent, the connection is not closed, and an entry is installed. -/
theorem empty_identity_accepted_cex :
    (websocket_handler [] ⟨[("email".data, [])]⟩ ⟨0, false⟩).accepted = true ∧
    (websocket_handler [] ⟨[("email".data, [])]⟩ ⟨0, false⟩).sent = [] ∧
    (websocket_handler [] ⟨[("email".data, [])]⟩ ⟨0, false⟩).closedByServer = false ∧
    (websocket_handler [] ⟨[("email".data, [])]⟩ ⟨0, false⟩).reg = [([], ⟨0, false⟩)] :=
  ⟨rfl, rfl, rfl, rfl⟩

/-- C6 amended: a subscribe request whose `email` parameter is absent is
rejected (the empty-string identity, being present, is not: it is treated
as an ordinary identity), and a request whose identity already has a live
entry is rejected; in both rejection cases the new connection is sent
exactly one JSON error event — an object with field `type` holding
`error` and field `payload` holding an object with the string field
`msg` — and is then closed, and the registry is left unchanged. -/
theorem subscribe_rejection_paths (reg : Registry) (request : WsRequest) (websock : Conn) :
    (queryGet request.query "email".data = none →
      websocket_handler reg request websock =
        { sent := [errorEventJson "email should be defined".data],
          closedByServer := true, accepted := false, reg := reg }) ∧
    (∀ email, queryGet request.query "email".data = some email →
      containsKey reg email = true →
      websocket_handler reg request websock =
        { sent := [errorEventJson "subscriber already exists".data],
          closedByServer := true, accepted := false, reg := reg }) := by
  constructor
  · intro h
    unfold websocket_handler
    rw [h]
  · intro email h hc
    unfold websocket_handler
    rw [h]
    simp only [hc, if_true]

/-- Witness for the amended C6 at concrete inputs: one request with no
query parameters, one duplicate subscription for an occupied identity. -/
theorem subscribe_rejection_paths_witness :
    (websocket_handler [(['a'], ⟨1, false⟩)] ⟨[]⟩ ⟨2, false⟩ =
      { sent := [errorEventJson "email should be defined".data],
        closedByServer := true, accepted := false, reg := [(['a'], ⟨1, false⟩)] }) ∧
    (websocket_handler [(['a'], ⟨1, false⟩)] ⟨[("email".data, ['a'])]⟩ ⟨2, false⟩ =
      { sent := [errorEventJson "subscriber already exists".data],
        closedByServer := true, accepted := false, reg := [(['a'], ⟨1, false⟩)] }) :=
  ⟨(subscribe_rejection_paths [(['a'], ⟨1, false⟩)] ⟨[]⟩ ⟨2, false⟩).1 rfl,
   (subscribe_rejection_paths [(['a'], ⟨1, false⟩)] ⟨[("email".data, ['a'])]⟩ ⟨2, false⟩).2
     ['a'] rfl rfl⟩

/-- C7: the registry keeps at most one live connection per identity: the
distinct-keys invariant is preserved by the subscribe step (for every
request outcome) and by the connection-close cleanup; a second
subscription attempt for an already-registered identity leaves the
registry untouched; and the cleanup that runs when a connection closes —
for any reason, since it sits in a `finally` block — removes exactly its
the entry of its own identity, leaving entries of other identities as they were. -/
theorem registry_at_most_one_per_identity (reg : Registry) (request : WsRequest)
    (websock : Conn) (email k : List Char) :
    (nodupKeys reg → nodupKeys (websocket_handler reg request websock).reg) ∧
    (nodupKeys reg → nodupKeys (websocket_finish reg email)) ∧
    (∀ e, queryGet request.query "email".data = some e → containsKey reg e = true →
      (websocket_handler reg request websock).reg = reg) ∧
    containsKey (websocket_finish reg email) email = false ∧
    (¬ k = email → lookupConn (websocket_finish reg email) k = lookupConn reg k) := by
  refine ⟨?_, ?_, ?_, ?_, ?_⟩
  · intro h
    unfold websocket_handler
    cases hq : queryGet request.query "email".data with
    | none => exact h
    | some e =>
      simp only []
      by_cases hc : containsKey reg e
      · rw [if_pos hc]; exact h
      · rw [if_neg hc]
        show nodupKeys ((e, websock) :: reg)
        unfold nodupKeys at h ⊢
        rw [List.map_cons, List.nodup_cons]
        have hcf : containsKey reg e = false := by simpa using hc
        exact ⟨not_mem_keys_of_containsKey_false hcf, h⟩
  · intro h
    exact nodupKeys_eraseKey h email
  · intro e hq hc
    unfold websocket_handler
    rw [hq]
    simp only [hc, if_true]
  · exact containsKey_eraseKey_self reg email
  · intro hne
    exact lookupConn_eraseKey_ne hne reg

/-- Witness for C7 at concrete inputs: a one-entry registry, a duplicate
subscribe request for the occupied identity, and the cleanup of that
identity observed from a different key. -/
theorem registry_at_most_one_per_identity_witness :
    nodupKeys (websocket_handler [(['a'], ⟨1, false⟩)]
      ⟨[("email".data, ['a'])]⟩ ⟨2, false⟩).reg ∧
    nodupKeys (websocket_finish [(['a'], ⟨1, false⟩)] ['a']) ∧
    (websocket_handler [(['a'], ⟨1, false⟩)] ⟨[("email".data, ['a'])]⟩ ⟨2, false⟩).reg
      = [(['a'], ⟨1, false⟩)] ∧
    containsKey (websocket_finish [(['a'], ⟨1, false⟩)] ['a']) ['a'] = false ∧
    lookupConn (websocket_finish [(['a'], ⟨1, false⟩)] ['a']) ['b']
      = lookupConn [(['a'], ⟨1, false⟩)] ['b'] :=
  have t := registry_at_most_one_per_identity [(['a'], ⟨1, false⟩)]
    ⟨[("email".data, ['a'])]⟩ ⟨2, false⟩ ['a'] ['b']
  ⟨t.1 (by unfold nodupKeys; decide), t.2.1 (by unfold nodupKeys; decide),
   t.2.2.1 ['a'] rfl rfl, t.2.2.2.1, t.2.2.2.2 (by decide)⟩

/-- C8: for every authorization request whose `Auth-SMTP-To` header has
the form `Name <local@domain>` (the angle-bracketed part containing no
stray separator characters), `auth_handler` extracts `domain` — the text
after the `@` and before the trailing `>` — and responds OK together with
the configured SMTP port when `domain` is an element of the configured
allow-list, and FORBIDDEN otherwise.  The handler is a pure function of
the request: the check has no side effects. -/
theorem auth_handler_domain_allowlist (allow_domains : List (List Char)) (smtp_port : Nat)
    (request : AuthRequest) (who mbox domain : List Char)
    (hh : request.authSmtpTo = some (who ++ '<' :: (mbox ++ '@' :: (domain ++ ['>']))))
    (hn : '<' ∉ who) (hm1 : '<' ∉ mbox) (hm2 : '>' ∉ mbox) (hm3 : '@' ∉ mbox)
    (hd1 : '<' ∉ domain) (hd2 : '>' ∉ domain) (hd3 : '@' ∉ domain) :
    auth_handler allow_domains smtp_port request =
      if domain ∈ allow_domains then
        .ok { status := .ok, authServer := some request.host, authPort := some smtp_port }
      else
        .ok { status := .forbidden, authServer := none, authPort := none } := by
  have h1 : '<' ∉ mbox ++ '@' :: (domain ++ ['>']) := by
    intro hmem
    rcases List.mem_append.mp hmem with hx | hx
    · exact hm1 hx
    · rcases List.mem_cons.mp hx with hx | hx
      · exact absurd hx (by decide)
      · rcases List.mem_append.mp hx with hx | hx
        · exact hd1 hx
        · rcases List.mem_cons.mp hx with hx | hx
          · exact absurd hx (by decide)
          · cases hx
  have h2 : '>' ∉ mbox ++ '@' :: domain := by
    intro hmem
    rcases List.mem_append.mp hmem with hx | hx
    · exact hm2 hx
    · rcases List.mem_cons.mp hx with hx | hx
      · exact absurd hx (by decide)
      · exact hd2 hx
  have hassoc : mbox ++ '@' :: (domain ++ ['>']) = (mbox ++ '@' :: domain) ++ '>' :: [] := by
    simp
  unfold auth_handler
  rw [hh]
  rw [show (some (who ++ '<' :: (mbox ++ '@' :: (domain ++ ['>'])))).getD []
      = who ++ '<' :: (mbox ++ '@' :: (domain ++ ['>'])) from rfl]
  rw [pySplit_append hn, pySplit_not_mem h1]
  simp only [List.getElem?_cons_succ, List.getElem?_cons_zero]
  rw [hassoc, pySplit_append h2]
  simp only [List.headD_cons]
  rw [pySplit_append hm3, pySplit_not_mem hd3]
  simp only [List.getElem?_cons_succ, List.getElem?_cons_zero]
  by_cases hmem : domain ∈ allow_domains
  · have hne : domain ∈ allow_domains.filter (fun x => x = domain) :=
      List.mem_filter.mpr ⟨hmem, by simp⟩
    have hie : (allow_domains.filter (fun x => x = domain)).isEmpty = false := by
      cases hfe : (allow_domains.filter (fun x => x = domain)).isEmpty
      · rfl
      · rw [List.isEmpty_iff.mp hfe] at hne
        cases hne
    rw [if_pos hmem]
    simp only [hie, Bool.false_eq_true, if_false]
  · have hfil : allow_domains.filter (fun x => x = domain) = [] :=
      List.filter_eq_nil_iff.mpr (fun a ha => by
        simp only [decide_eq_true_eq]
        intro heq
        exact hmem (heq ▸ ha))
    rw [if_neg hmem]
    simp only [hfil, List.isEmpty_nil, if_true]

/-- Witness for C8 at a concrete input: header `Name <u@x.com>` against
the allow-list holding only `x.com`. -/
theorem auth_handler_domain_allowlist_witness :
    auth_handler ["x.com".data] 8025
      ⟨some ("Name ".data ++ '<' :: ("u".data ++ '@' :: ("x.com".data ++ ['>']))), "h".data⟩ =
      if "x.com".data ∈ ["x.com".data] then
        .ok { status := .ok, authServer := some "h".data, authPort := some 8025 }
      else
        .ok { status := .forbidden, authServer := none, authPort := none } :=
  auth_handler_domain_allowlist ["x.com".data] 8025
    ⟨some ("Name ".data ++ '<' :: ("u".data ++ '@' :: ("x.com".data ++ ['>']))), "h".data⟩
    "Name ".data "u".data "x.com".data rfl
    (by decide) (by decide) (by decide) (by decide) (by decide) (by decide) (by decide)

/-- C10: for every authorization request whose `Auth-SMTP-To` header is
absent (so the empty default string is used) or otherwise lacks a `<`, or
lacks an `@` inside the angle-bracketed segment, `auth_handler` raises an
unhandled `IndexError` during the chained `split(...)[1]` indexing instead
of returning a FORBIDDEN response: the handler is not total over
requests. -/
theorem auth_handler_raises_index_error (allow_domains : List (List Char)) (smtp_port : Nat)
    (request : AuthRequest)
    (h : '<' ∉ request.authSmtpTo.getD [] ∨
      ∃ s1, (pySplit '<' (request.authSmtpTo.getD []))[1]? = some s1 ∧
        '@' ∉ (pySplit '>' s1).headD []) :
    auth_handler allow_domains smtp_port request = .error .indexError := by
  unfold auth_handler
  rcases h with h | ⟨s1, hs1, h2⟩
  · rw [pySplit_one_none h]
  · rw [hs1]
    simp only []
    rw [pySplit_one_none h2]

/-- Witness for C10 at a concrete input: the header is absent, so the
default empty string is split, `split` of the empty string yields one
empty segment, and the `[1]` indexing fails. -/
theorem auth_handler_raises_index_error_witness :
    auth_handler ["x.com".data] 8025 ⟨none, "h".data⟩ = .error .indexError :=
  auth_handler_raises_index_error ["x.com".data] 8025 ⟨none, "h".data⟩
    (Or.inl (by decide))

end Mail2Mongo
